import Mathlib

/-!
Shallow embedding of cilium's logging configuration subsystem
(src/common/logging.go) together with theorems about its behaviour.

The Go code configures the process-wide logrus emitter: it partitions a
flat `map[string]string` of options into per-sink sub-maps
(`getLogDriverConfig`), validates each sub-map against a per-sink
allow-list (`validateOpts`), and installs sinks (`setupSyslog`,
`setupFluentD`) via `SetupLogging`.

Modelling decisions:
- Go `map[string]string` is modelled as an association list `OptMap`
  (Go map keys are unique; iteration order is the list order).
- The process-global logrus state (output destination, formatter,
  minimum level, hook chain) is an explicit `LogrusState` value.
- `logrus.Fatal` aborts the process; a run therefore yields an
  `Outcome`: `ok`, a returned (recoverable) `err`, or a `fatal` abort.
- Network dials performed by hook constructors (`NewSyslogHook`,
  `logrus_fluent.New`) are environment I/O; they are modelled as
  succeeding, so the hook value records the configuration handed over.
- `os.Getenv("INITSYSTEM")` read by `setupFormatter` is passed in as an
  explicit `initsystem` argument.
- `regexp.MatchString(logDriver+".*", k)` is modelled by a matcher for
  a regex fragment: literal characters, `.` (any character) and a `*`
  directly after an atom, with Go's unanchored match-anywhere
  semantics.  (Go's `.` does not match a newline; this difference is
  irrelevant for the newline-free keys considered here.)  A pattern
  outside that fragment is routed to `MatchString`'s error return and
  from there to the `logrus.Fatal` branch of getLogDriverConfig; for
  patterns such as `"(.*"` this is exactly Go's compile error, while
  driver names using regex syntax the fragment does not implement are
  kept out of every theorem by the `patternCompiles` guard.
-/

namespace Common

/-! ### Severity levels (logrus.Level, a uint32: Panic = 0 … Debug = 5) -/

abbrev Level := Nat

def PanicLevel : Level := 0
def FatalLevel : Level := 1
def ErrorLevel : Level := 2
def WarnLevel : Level := 3
def InfoLevel : Level := 4
def DebugLevel : Level := 5

/-- Model of `logrus.ParseLevel` (vendored dependency): the recognized
level strings, case-sensitively; anything else is an error (`none`). -/
def parseLevel (lvl : String) : Option Level :=
  if lvl == "panic" then some PanicLevel
  else if lvl == "fatal" then some FatalLevel
  else if lvl == "error" then some ErrorLevel
  else if lvl == "warn" || lvl == "warning" then some WarnLevel
  else if lvl == "info" then some InfoLevel
  else if lvl == "debug" then some DebugLevel
  else none

/-- Message carried by `logrus.Fatal(err)` when a level string fails to
parse: Go formats `fmt.Errorf("not a valid logrus Level: %q", lvl)`. -/
def levelParseErrorMsg (lvl : String) : String :=
  "not a valid logrus Level: \"" ++ lvl ++ "\""

/-! ### syslog priorities (log/syslog package constants) -/

abbrev Priority := Nat

def LOG_ALERT : Priority := 1
def LOG_CRIT : Priority := 2
def LOG_ERR : Priority := 3
def LOG_WARNING : Priority := 4
def LOG_INFO : Priority := 6
def LOG_DEBUG : Priority := 7

/-- syslogLevelMap from logging.go: Go map from logrus.Level to
syslog.Priority.  A Go map lookup at a missing key yields the zero
value, hence the final 0 branch. -/
def syslogLevelMap (l : Level) : Priority :=
  if l = PanicLevel then LOG_ALERT
  else if l = FatalLevel then LOG_CRIT
  else if l = ErrorLevel then LOG_ERR
  else if l = WarnLevel then LOG_WARNING
  else if l = InfoLevel then LOG_INFO
  else if l = DebugLevel then LOG_DEBUG
  else 0

/-- setFireLevels from logging.go: the switch over the six levels.  The
default branch builds (and discards) an error value and returns nil,
modelled as `[]`. -/
def setFireLevels (level : Level) : List Level :=
  if level = PanicLevel then [PanicLevel]
  else if level = FatalLevel then [PanicLevel, FatalLevel]
  else if level = ErrorLevel then [PanicLevel, FatalLevel, ErrorLevel]
  else if level = WarnLevel then
    [PanicLevel, FatalLevel, ErrorLevel, WarnLevel]
  else if level = InfoLevel then
    [PanicLevel, FatalLevel, ErrorLevel, WarnLevel, InfoLevel]
  else if level = DebugLevel then
    [PanicLevel, FatalLevel, ErrorLevel, WarnLevel, InfoLevel, DebugLevel]
  else []

/-! ### Option allow-lists (Go `map[string]bool`, true on listed keys) -/

def syslogOpts (k : String) : Bool :=
  k == "syslog.level"

def fluentDOpts (k : String) : Bool :=
  k == "fluentd.address" || k == "fluentd.tag" || k == "fluentd.level"

def logstashOpts (k : String) : Bool :=
  k == "logstash.address" || k == "logstash.level" || k == "logstash.protocol"

/-! ### Regex fragment used by getLogDriverConfig -/

/-- A compiled pattern atom: a literal character, `.` (any character),
or either of those under a Kleene star. -/
inductive PAtom where
  | lit (c : Char)
  | dot
  | litStar (c : Char)
  | dotStar
deriving DecidableEq

/-- Characters that carry regex meaning beyond the literal / `.` /
trailing-`*` fragment modelled here.  `.` is modelled; `*` is modelled
only directly after an atom (the position the appended `".*"` puts it
in), and a `*` reaching this test is a stray leading or doubled star,
which Go's compiler also rejects. -/
def regexSpecialChar (c : Char) : Bool :=
  c == '(' || c == ')' || c == '[' || c == ']' || c == '{' || c == '}' ||
  c == '^' || c == '$' || c == '|' || c == '+' || c == '?' || c == '\\' ||
  c == '*'

/-- Compile a pattern string into atoms: a character followed by `*` is
a starred atom, `.` is the any-character atom, other non-special
characters are literals.  A pattern using any further regex syntax is
outside the modelled fragment and yields `none`, which the caller maps
to `regexp.MatchString`'s non-nil-error outcome.  For the reachable
offenders — an unbalanced `(` or `[`, a stray `)`, a leading `*`, `+`
or `?` — the pattern `name ++ ".*"` indeed fails to compile in Go; the
remaining special characters have Go semantics this model does not
implement, and no theorem below instantiates a driver name containing
them: universal statements go through the `patternCompiles` guard. -/
def compilePattern? : List Char → Option (List PAtom)
  | [] => some []
  | c :: '*' :: rest =>
    if regexSpecialChar c then none
    else
      (compilePattern? rest).map (fun p =>
        (if c == '.' then PAtom.dotStar else PAtom.litStar c) :: p)
  | c :: rest =>
    if regexSpecialChar c then none
    else
      (compilePattern? rest).map (fun p =>
        (if c == '.' then PAtom.dot else PAtom.lit c) :: p)

/-- Starred literal: consume zero or more copies of `c`, handing each
possible remainder to the continuation `k` (the rest of the pattern). -/
def matchStarLit (c : Char) (k : List Char → Bool) : List Char → Bool
  | [] => k []
  | x :: xs => k (x :: xs) || (x == c && matchStarLit c k xs)

/-- Starred dot: consume zero or more arbitrary characters, handing
each possible remainder to the continuation `k`. -/
def matchStarDot (k : List Char → Bool) : List Char → Bool
  | [] => k []
  | x :: xs => k (x :: xs) || matchStarDot k xs

/-- Match a compiled pattern against the start of a string; the match
may end before the string does (Go reports a match of any substring). -/
def matchFrom : List PAtom → List Char → Bool
  | [], _ => true
  | PAtom.lit c :: r, s =>
    match s with
    | [] => false
    | x :: xs => x == c && matchFrom r xs
  | PAtom.dot :: r, s =>
    match s with
    | [] => false
    | _ :: xs => matchFrom r xs
  | PAtom.litStar c :: r, s => matchStarLit c (matchFrom r) s
  | PAtom.dotStar :: r, s => matchStarDot (matchFrom r) s

/-- Unanchored matching: try every start position, as Go's
`regexp.MatchString` does. -/
def reMatchAnywhere (p : List PAtom) : List Char → Bool
  | [] => matchFrom p []
  | x :: xs => matchFrom p (x :: xs) || reMatchAnywhere p xs

/-- Model of Go `regexp.MatchString(pattern, s)`: `some b` when the
pattern compiles (within the fragment above) and matching reports `b`;
`none` models the non-nil error return for a pattern that does not
compile. -/
def goMatchString? (pattern s : String) : Option Bool :=
  (compilePattern? pattern.toList).map (fun p => reMatchAnywhere p s.toList)

/-- A driver name whose partitioner pattern `logDriver ++ ".*"` lies in
the modelled surely-compiling fragment (in particular every name free
of regex metacharacters). -/
def patternCompiles (logDriver : String) : Bool :=
  (compilePattern? (logDriver ++ ".*").toList).isSome

/-! ### Option maps -/

/-- Go `map[string]string`, as an association list with unique keys. -/
abbrev OptMap := List (String × String)

/-- Go map read `m[k]`: `some v` when present (the `ok` flag true). -/
def mapLookup (m : OptMap) (k : String) : Option String :=
  (m.find? (fun kv => kv.1 == k)).map (fun kv => kv.2)

/-- Result of a Go call that can abort the whole process through
`logrus.Fatal` instead of returning. -/
inductive GoResult (α : Type) where
  | ret (a : α)
  | fatal (msg : String)
deriving DecidableEq

/-- Message of the `logrus.Fatal` in getLogDriverConfig's
`regexp.MatchString` error branch.  `logrus.Fatal` (not `Fatalf`) joins
its arguments `fmt.Sprint`-style, so the `%q` verbs stay verbatim and
the string operands are concatenated without separators. -/
def matchErrorMsg (k logDriver : String) : String :=
  "error parsing key %q for log-driver %q" ++ k ++ logDriver

/-- The `for k, v := range logOpts` loop of getLogDriverConfig: each
key is matched against the pattern `logDriver ++ ".*"`; a non-nil
`regexp.MatchString` error (the pattern does not compile) hits
`logrus.Fatal` on the first key examined, and matching keys are copied
into the fresh map `keysToValidate`.  Only `keysToValidate` is written
to; `logOpts` is only read. -/
def gatherConfig (logDriver : String) :
    List (String × String) → OptMap → GoResult OptMap
  | [], keysToValidate => GoResult.ret keysToValidate
  | (k, v) :: rest, keysToValidate =>
    match goMatchString? (logDriver ++ ".*") k with
    | none => GoResult.fatal (matchErrorMsg k logDriver)
    | some ok =>
      if ok then gatherConfig logDriver rest (keysToValidate ++ [(k, v)])
      else gatherConfig logDriver rest keysToValidate

/-- getLogDriverConfig from logging.go: either the gathered sub-map or
the fatal abort from the pattern-error branch.  The second component is
the caller's map as it stands when the call ends: the body performs no
write to `logOpts`, which the frame theorems below make explicit. -/
def getLogDriverConfig (logDriver : String) (logOpts : OptMap) :
    GoResult OptMap × OptMap :=
  (gatherConfig logDriver logOpts [], logOpts)

/-! ### Errors returned (not fatal) by the subsystem -/

/-- The recoverable errors SetupLogging can return, structured.  In Go
they are `fmt.Errorf` strings: `unsupportedOption k d` renders as
"provided configuration value %q is not supported as a logging option
for log driver %s" and `unknownDriver d` as "provided log driver %q is
not a supported log driver". -/
inductive LogError where
  | unsupportedOption (key logDriver : String)
  | unknownDriver (logDriver : String)
deriving DecidableEq

/-- validateOpts from logging.go: scan the sub-map, failing on the
first key absent from the allow-list. -/
def validateOpts (logDriver : String) (supportedOpts : String → Bool) :
    OptMap → Option LogError
  | [] => none
  | (k, _) :: rest =>
    if !(supportedOpts k) then some (LogError.unsupportedOption k logDriver)
    else validateOpts logDriver supportedOpts rest

/-! ### The logrus emitter state and hooks -/

/-- Where the default logrus logger writes. -/
inductive OutputDest where
  | stderr
  | discard
deriving DecidableEq

/-- logrus.TextFormatter fields touched by setupFormatter. -/
structure TextFormatter where
  disableColors : Bool
  disableTimestamp : Bool
  fullTimestamp : Bool
  timestampFormat : Option String
deriving DecidableEq

/-- setupFormatter from logging.go, with the INITSYSTEM environment
variable passed in.  `time.RFC3339` is the Go layout constant. -/
def setupFormatter (initsystem : String) : TextFormatter :=
  if initsystem == "SYSTEMD" then
    { disableColors := true, disableTimestamp := true,
      fullTimestamp := true, timestampFormat := none }
  else
    { disableColors := true, disableTimestamp := false,
      fullTimestamp := false,
      timestampFormat := some "2006-01-02T15:04:05Z07:00" }

/-- An installed sink: what AddHook appended, with the configuration the
hook was constructed with.  The fluentd hook records the explicitly set
tag (`SetTag` runs only when "fluentd.tag" is present) and the exact
fire-level set passed to `SetLevels`. -/
inductive Hook where
  | syslog (priority : Priority) (tag : String)
  | fluentd (host : String) (port : Int) (tag : Option String)
      (fireLevels : List Level)
deriving DecidableEq

def Hook.isSyslogHook : Hook → Bool
  | Hook.syslog _ _ => true
  | _ => false

def Hook.isFluentdHook : Hook → Bool
  | Hook.fluentd _ _ _ _ => true
  | _ => false

/-- The process-global logrus state touched by this subsystem. -/
structure LogrusState where
  output : OutputDest
  formatter : Option TextFormatter
  level : Level
  hooks : List Hook
deriving DecidableEq

/-- logrus at process start: stderr output, default formatter, level
Info, no hooks. -/
def initState : LogrusState :=
  { output := OutputDest.stderr, formatter := none,
    level := InfoLevel, hooks := [] }

/-- Result of running a piece of the subsystem: normal return, a
recoverable returned error, or a `logrus.Fatal` process abort.  The
state records what had been installed when the run ended. -/
inductive Outcome where
  | ok (st : LogrusState)
  | err (e : LogError) (st : LogrusState)
  | fatal (msg : String) (st : LogrusState)
deriving DecidableEq

/-- The logrus state in which a run ended, whatever the outcome. -/
def Outcome.state : Outcome → LogrusState
  | Outcome.ok st => st
  | Outcome.err _ st => st
  | Outcome.fatal _ st => st

/-! ### Host/port parsing (net.SplitHostPort, strconv.Atoi) -/

/-- Split a character list at its last colon, if any. -/
def breakAtLastColon : List Char → Option (List Char × List Char)
  | [] => none
  | c :: rest =>
    match breakAtLastColon rest with
    | some (h, p) => some (c :: h, p)
    | none => if c == ':' then some ([], rest) else none

/-- Model of `net.SplitHostPort` for the unbracketed addresses in
scope: split at the last colon; a missing colon or a colon inside the
host part is an addressing error.  The caller ignores that error, so
the error case is modelled by the zero values `("", "")` Go leaves in
`host` and `strPort`. -/
def splitHostPort (hostport : String) : String × String :=
  match breakAtLastColon hostport.toList with
  | some (h, p) =>
    if h.contains ':' then ("", "") else (String.mk h, String.mk p)
  | none => ("", "")

/-- Model of `strconv.Atoi`: an optional sign followed by one or more
ASCII digits.  (The out-of-int-range error cannot trigger for the
addresses in scope and is not modelled.) -/
def atoi (s : String) : Option Int :=
  match s.toList with
  | [] => none
  | '+' :: ds =>
    if !ds.isEmpty && ds.all Char.isDigit then
      some (Int.ofNat (ds.foldl (fun acc c => acc * 10 + (c.toNat - 48)) 0))
    else none
  | '-' :: ds =>
    if !ds.isEmpty && ds.all Char.isDigit then
      some (-(Int.ofNat (ds.foldl (fun acc c => acc * 10 + (c.toNat - 48)) 0)))
    else none
  | ds =>
    if ds.all Char.isDigit then
      some (Int.ofNat (ds.foldl (fun acc c => acc * 10 + (c.toNat - 48)) 0))
    else none

/-- Message of `logrus.Fatal(err)` on a strconv.Atoi failure:
`strconv.Atoi: parsing %q: invalid syntax`. -/
def atoiErrorMsg (s : String) : String :=
  "strconv.Atoi: parsing \"" ++ s ++ "\": invalid syntax"

/-! ### Sink installers -/

/-- setupSyslog from logging.go: default level string "info"; an
unparseable level is a `logrus.Fatal`; otherwise the global level is
set and the syslog hook is appended.  The `NewSyslogHook` dial is
modelled as succeeding. -/
def setupSyslog (logOpts : OptMap) (tag : String) (st : LogrusState) :
    Outcome :=
  let logLevel := (mapLookup logOpts "syslog.level").getD "info"
  match parseLevel logLevel with
  | none => Outcome.fatal (levelParseErrorMsg logLevel) st
  | some level =>
    Outcome.ok { st with
      level := level,
      hooks := st.hooks ++ [Hook.syslog (syslogLevelMap level) tag] }

/-- setupFluentD from logging.go: default level "info" (unparseable is
fatal), default address "localhost:24224"; the `net.SplitHostPort`
error is discarded by the code (its `err` is immediately shadowed) and
a bad port string is a fatal `strconv.Atoi` failure.  The
`logrus_fluent.New` dial is modelled as succeeding; the hook records
the fire-level set `SetLevels(setFireLevels(level))`. -/
def setupFluentD (logOpts : OptMap) (st : LogrusState) : Outcome :=
  let logLevel := (mapLookup logOpts "fluentd.level").getD "info"
  match parseLevel logLevel with
  | none => Outcome.fatal (levelParseErrorMsg logLevel) st
  | some level =>
    let hostAndPort := (mapLookup logOpts "fluentd.address").getD
      "localhost:24224"
    let hp := splitHostPort hostAndPort
    match atoi hp.2 with
    | none => Outcome.fatal (atoiErrorMsg hp.2) st
    | some port =>
      Outcome.ok { st with
        hooks := st.hooks ++
          [Hook.fluentd hp.1 port (mapLookup logOpts "fluentd.tag")
            (setFireLevels level)] }

/-! ### The orchestrator -/

/-- The `for _, logger := range loggers` loop of SetupLogging: the
sub-map is gathered first (whose pattern-error branch aborts the whole
process), then "syslog" is skipped (already installed), "fluentd" is
validated and installed, and anything else (including the commented-out
"logstash") returns the unknown-driver error.  The caller's map is
threaded through unchanged alongside the outcome. -/
def processLoggers : List String → OptMap → LogrusState → Outcome × OptMap
  | [], logOpts, st => (Outcome.ok st, logOpts)
  | logger :: rest, logOpts, st =>
    match getLogDriverConfig logger logOpts with
    | (GoResult.fatal msg, logOpts) => (Outcome.fatal msg st, logOpts)
    | (GoResult.ret valuesToValidate, logOpts) =>
      if logger == "syslog" then
        processLoggers rest logOpts st
      else if logger == "fluentd" then
        match validateOpts logger fluentDOpts valuesToValidate with
        | some e => (Outcome.err e st, logOpts)
        | none =>
          match setupFluentD valuesToValidate st with
          | Outcome.ok st1 => processLoggers rest logOpts st1
          | Outcome.err e st1 => (Outcome.err e st1, logOpts)
          | Outcome.fatal m st1 => (Outcome.fatal m st1, logOpts)
      else
        (Outcome.err (LogError.unknownDriver logger) st, logOpts)

/-- SetupLogging from logging.go: set the formatter, then always
partition + validate + install syslog (silencing the default stderr
output just before), then walk the requested loggers.  The syslog
partition's pattern "syslog.*" always compiles, but the fatal branch is
kept for structural fidelity.  The second component is the caller's
`logOpts` map as the call leaves it. -/
def SetupLogging (loggers : List String) (logOpts : OptMap) (tag : String)
    (initsystem : String) (st : LogrusState) : Outcome × OptMap :=
  let st := { st with formatter := some (setupFormatter initsystem) }
  match getLogDriverConfig "syslog" logOpts with
  | (GoResult.fatal msg, logOpts) => (Outcome.fatal msg st, logOpts)
  | (GoResult.ret valuesToValidate, logOpts) =>
    match validateOpts "syslog" syslogOpts valuesToValidate with
    | some e => (Outcome.err e st, logOpts)
    | none =>
      let st := { st with output := OutputDest.discard }
      match setupSyslog valuesToValidate tag st with
      | Outcome.ok st1 => processLoggers loggers logOpts st1
      | Outcome.err e st1 => (Outcome.err e st1, logOpts)
      | Outcome.fatal m st1 => (Outcome.fatal m st1, logOpts)

/-- The fluentd hook installed when no fluentd option is supplied: all
defaults (address "localhost:24224", no explicit tag, level Info). -/
def defFluentdHook : Hook :=
  Hook.fluentd "localhost" 24224 none (setFireLevels InfoLevel)

/-! ### Helper lemmas -/

theorem hook_fluentd_not_syslog (h : Hook) (hf : h.isFluentdHook = true) :
    h.isSyslogHook = false := by
  cases h <;> simp_all [Hook.isFluentdHook, Hook.isSyslogHook]

theorem logrusState_eta (st : LogrusState) :
    { st with hooks := st.hooks ++ [] } = st := by
  cases st; simp

theorem setupSyslog_empty (tag : String) (st : LogrusState) :
    setupSyslog [] tag st = Outcome.ok { st with
      level := InfoLevel,
      hooks := st.hooks ++ [Hook.syslog LOG_INFO tag] } := rfl

theorem setupFluentD_empty (st : LogrusState) :
    setupFluentD [] st =
      Outcome.ok { st with hooks := st.hooks ++ [defFluentdHook] } := rfl

theorem setupFluentD_ok_hooks (m : OptMap) (st st1 : LogrusState)
    (h : setupFluentD m st = Outcome.ok st1) :
    ∃ hk, hk.isFluentdHook = true ∧ st1.hooks = st.hooks ++ [hk] := by
  simp only [setupFluentD] at h
  cases hpl : parseLevel ((mapLookup m "fluentd.level").getD "info") with
  | none => rw [hpl] at h; exact absurd h (by simp)
  | some level =>
    rw [hpl] at h
    cases hat : atoi (splitHostPort
        ((mapLookup m "fluentd.address").getD "localhost:24224")).2 with
    | none => rw [hat] at h; exact absurd h (by simp)
    | some port =>
      rw [hat] at h
      cases h
      exact ⟨_, by simp [Hook.isFluentdHook], rfl⟩

theorem setupFluentD_fatal_state (m : OptMap) (st st1 : LogrusState)
    (msg : String) (h : setupFluentD m st = Outcome.fatal msg st1) :
    st1 = st := by
  simp only [setupFluentD] at h
  cases hpl : parseLevel ((mapLookup m "fluentd.level").getD "info") with
  | none => rw [hpl] at h; cases h; rfl
  | some level =>
    rw [hpl] at h
    cases hat : atoi (splitHostPort
        ((mapLookup m "fluentd.address").getD "localhost:24224")).2 with
    | none => rw [hat] at h; cases h; rfl
    | some port => rw [hat] at h; exact absurd h (by simp)

theorem setupFluentD_not_err (m : OptMap) (st st1 : LogrusState)
    (e : LogError) : setupFluentD m st ≠ Outcome.err e st1 := by
  simp only [setupFluentD]
  cases hpl : parseLevel ((mapLookup m "fluentd.level").getD "info") with
  | none => simp
  | some level =>
    cases hat : atoi (splitHostPort
        ((mapLookup m "fluentd.address").getD "localhost:24224")).2 with
    | none => simp
    | some port => simp

theorem processLoggers_cons_fatal (l : String) (rest : List String)
    (m : OptMap) (st : LogrusState) (msg : String)
    (hg : gatherConfig l m [] = GoResult.fatal msg) :
    processLoggers (l :: rest) m st = (Outcome.fatal msg st, m) := by
  simp only [processLoggers, getLogDriverConfig, hg]

theorem processLoggers_cons_ret (l : String) (rest : List String)
    (m : OptMap) (st : LogrusState) (vals : OptMap)
    (hg : gatherConfig l m [] = GoResult.ret vals) :
    processLoggers (l :: rest) m st =
      (if l == "syslog" then processLoggers rest m st
       else if l == "fluentd" then
         match validateOpts l fluentDOpts vals with
         | some e => (Outcome.err e st, m)
         | none =>
           match setupFluentD vals st with
           | Outcome.ok st1 => processLoggers rest m st1
           | Outcome.err e st1 => (Outcome.err e st1, m)
           | Outcome.fatal ms st1 => (Outcome.fatal ms st1, m)
       else (Outcome.err (LogError.unknownDriver l) st, m)) := by
  simp only [processLoggers, getLogDriverConfig, hg]

theorem processLoggers_snd (loggers : List String) (m : OptMap)
    (st : LogrusState) : (processLoggers loggers m st).2 = m := by
  induction loggers generalizing st with
  | nil => rfl
  | cons l rest ih =>
    cases hg : gatherConfig l m [] with
    | fatal msg => rw [processLoggers_cons_fatal l rest m st msg hg]
    | ret vals =>
      rw [processLoggers_cons_ret l rest m st vals hg]
      split
      · exact ih _
      · split
        · split
          · rfl
          · split
            · exact ih _
            · rfl
            · rfl
        · rfl

theorem processLoggers_hooks_extend (loggers : List String) (m : OptMap)
    (st : LogrusState) :
    ∃ extra, ((processLoggers loggers m st).1.state).hooks = st.hooks ++ extra
      ∧ ∀ hk ∈ extra, hk.isFluentdHook = true := by
  induction loggers generalizing st with
  | nil => exact ⟨[], by simp [processLoggers, Outcome.state], by simp⟩
  | cons l rest ih =>
    cases hg : gatherConfig l m [] with
    | fatal msg =>
      rw [processLoggers_cons_fatal l rest m st msg hg]
      exact ⟨[], by simp [Outcome.state], by simp⟩
    | ret vals =>
      rw [processLoggers_cons_ret l rest m st vals hg]
      split
      · exact ih st
      · split
        · split
          · exact ⟨[], by simp [Outcome.state], by simp⟩
          · split
            · rename_i st1 hok
              obtain ⟨hk, hhk, hst1⟩ := setupFluentD_ok_hooks _ _ _ hok
              obtain ⟨extra, hext, hall⟩ := ih st1
              refine ⟨hk :: extra, ?_, ?_⟩
              · rw [hext, hst1, List.append_assoc]
                rfl
              · intro x hx
                rcases List.mem_cons.mp hx with hx | hx
                · exact hx ▸ hhk
                · exact hall x hx
            · rename_i e st1 herr
              exact absurd herr (setupFluentD_not_err _ _ _ _)
            · rename_i msg st1 hfat
              have := setupFluentD_fatal_state _ _ _ _ hfat
              exact ⟨[], by simp [Outcome.state, this], by simp⟩
        · exact ⟨[], by simp [Outcome.state], by simp⟩

theorem processLoggers_append (l1 l2 : List String) (m : OptMap)
    (st st1 : LogrusState)
    (h : processLoggers l1 m st = (Outcome.ok st1, m)) :
    processLoggers (l1 ++ l2) m st = processLoggers l2 m st1 := by
  induction l1 generalizing st with
  | nil =>
    simp only [processLoggers] at h
    cases h
    rfl
  | cons l rest ih =>
    rw [List.cons_append]
    cases hg : gatherConfig l m [] with
    | fatal msg =>
      rw [processLoggers_cons_fatal l rest m st msg hg] at h
      cases h
    | ret vals =>
      rw [processLoggers_cons_ret l rest m st vals hg] at h
      rw [processLoggers_cons_ret l (rest ++ l2) m st vals hg]
      split at h
      · rename_i hl
        rw [if_pos hl]
        exact ih _ h
      · rename_i hl
        rw [if_neg hl]
        split at h
        · rename_i hf
          rw [if_pos hf]
          split at h
          · cases h
          · split at h
            · rename_i stx hok
              exact ih _ h
            · cases h
            · cases h
        · rename_i hf
          rw [if_neg hf]
          cases h

theorem processLoggers_known_empty (loggers : List String) (st : LogrusState)
    (h : ∀ l ∈ loggers, l = "syslog" ∨ l = "fluentd") :
    processLoggers loggers [] st =
      (Outcome.ok { st with
        hooks := st.hooks ++
                 List.replicate (loggers.count "fluentd") defFluentdHook },
       []) := by
  induction loggers generalizing st with
  | nil => simp [processLoggers, logrusState_eta]
  | cons l rest ih =>
    rcases h l (List.mem_cons_self l rest) with hl | hl
    · subst hl
      have hcount : (("syslog" : String) :: rest).count "fluentd" =
          rest.count "fluentd" := by
        simp [List.count_cons]
      rw [hcount]
      have hstep : processLoggers ("syslog" :: rest) [] st =
          processLoggers rest [] st := by
        rw [processLoggers_cons_ret "syslog" rest [] st [] rfl]
        rfl
      rw [hstep]
      exact ih st (fun x hx => h x (List.mem_cons_of_mem _ hx))
    · subst hl
      have hcount : (("fluentd" : String) :: rest).count "fluentd" =
          rest.count "fluentd" + 1 := by
        simp [List.count_cons]
      rw [hcount]
      have hstep : processLoggers ("fluentd" :: rest) [] st =
          processLoggers rest []
            { st with hooks := st.hooks ++ [defFluentdHook] } := by
        rw [processLoggers_cons_ret "fluentd" rest [] st [] rfl]
        rfl
      rw [hstep, ih _ (fun x hx => h x (List.mem_cons_of_mem _ hx))]
      simp [List.replicate_succ, List.append_assoc]

theorem setupLogging_gather_fatal (loggers : List String) (m : OptMap)
    (tag env : String) (st : LogrusState) (msg : String)
    (hg : gatherConfig "syslog" m [] = GoResult.fatal msg) :
    SetupLogging loggers m tag env st =
      (Outcome.fatal msg { st with formatter := some (setupFormatter env) },
       m) := by
  simp only [SetupLogging, getLogDriverConfig, hg]

theorem setupLogging_gather_ret (loggers : List String) (m : OptMap)
    (tag env : String) (st : LogrusState) (vals : OptMap)
    (hg : gatherConfig "syslog" m [] = GoResult.ret vals) :
    SetupLogging loggers m tag env st =
      (match validateOpts "syslog" syslogOpts vals with
       | some e =>
         (Outcome.err e { st with formatter := some (setupFormatter env) },
          m)
       | none =>
         match setupSyslog vals tag
             { { st with formatter := some (setupFormatter env) } with
               output := OutputDest.discard } with
         | Outcome.ok st1 => processLoggers loggers m st1
         | Outcome.err e st1 => (Outcome.err e st1, m)
         | Outcome.fatal ms st1 => (Outcome.fatal ms st1, m)) := by
  simp only [SetupLogging, getLogDriverConfig, hg]

theorem validateOpts_none_iff (d : String) (sup : String → Bool)
    (m : OptMap) :
    validateOpts d sup m = none ↔ ∀ kv ∈ m, sup kv.1 = true := by
  induction m with
  | nil => simp [validateOpts]
  | cons kv rest ih =>
    obtain ⟨k, v⟩ := kv
    by_cases hk : sup k = true
    · simp [validateOpts, hk, ih]
    · simp [validateOpts, hk]

theorem validateOpts_some_shape (d : String) (sup : String → Bool)
    (m : OptMap) (e : LogError) (h : validateOpts d sup m = some e) :
    ∃ k v, (k, v) ∈ m ∧ sup k = false ∧
      e = LogError.unsupportedOption k d := by
  induction m with
  | nil => simp [validateOpts] at h
  | cons kv rest ih =>
    obtain ⟨k, v⟩ := kv
    by_cases hk : sup k = true
    · simp only [validateOpts, hk, Bool.not_true, Bool.false_eq_true,
        if_false] at h
      obtain ⟨k1, v1, hm, hs, he⟩ := ih h
      exact ⟨k1, v1, List.mem_cons_of_mem _ hm, hs, he⟩
    · simp only [validateOpts, Bool.not_eq_true] at h
      rw [Bool.not_eq_true] at hk
      rw [hk] at h
      simp only [Bool.not_false, if_true, Option.some.injEq] at h
      exact ⟨k, v, List.mem_cons_self _ _, hk, h.symm⟩

theorem setupSyslog_ok_shape (m : OptMap) (tag : String)
    (st st1 : LogrusState) (h : setupSyslog m tag st = Outcome.ok st1) :
    ∃ l, st1 = { st with
      level := l,
      hooks := st.hooks ++ [Hook.syslog (syslogLevelMap l) tag] } := by
  simp only [setupSyslog] at h
  cases hpl : parseLevel ((mapLookup m "syslog.level").getD "info") with
  | none => rw [hpl] at h; exact absurd h (by simp)
  | some l => rw [hpl] at h; cases h; exact ⟨l, rfl⟩

theorem setupSyslog_fatal_state (m : OptMap) (tag : String)
    (st st1 : LogrusState) (msg : String)
    (h : setupSyslog m tag st = Outcome.fatal msg st1) : st1 = st := by
  simp only [setupSyslog] at h
  cases hpl : parseLevel ((mapLookup m "syslog.level").getD "info") with
  | none => rw [hpl] at h; cases h; rfl
  | some l => rw [hpl] at h; exact absurd h (by simp)

/-- The logrus state after the always-on syslog phase of a SetupLogging
call made from process start with no syslog options: stderr silenced,
formatter set, global level Info, and the single default syslog hook. -/
def syslogOnlyState (env tag : String) : LogrusState :=
  { output := OutputDest.discard, formatter := some (setupFormatter env),
    level := InfoLevel, hooks := [Hook.syslog LOG_INFO tag] }

/-- The state of a SetupLogging call from process start right after the
formatter is set, before anything else happens. -/
def preState (env : String) : LogrusState :=
  { output := OutputDest.stderr, formatter := some (setupFormatter env),
    level := InfoLevel, hooks := [] }

/-- The state of a SetupLogging call from process start right after the
default stderr output is silenced, before setupSyslog runs. -/
def silencedState (env : String) : LogrusState :=
  { output := OutputDest.discard, formatter := some (setupFormatter env),
    level := InfoLevel, hooks := [] }

/-- The state after setupSyslog installs its hook at level `l` in a
SetupLogging call from process start. -/
def afterSyslogState (env tag : String) (l : Level) : LogrusState :=
  { output := OutputDest.discard, formatter := some (setupFormatter env),
    level := l, hooks := [Hook.syslog (syslogLevelMap l) tag] }

/-! ### Claim theorems -/

/-- C1: the claim says getLogDriverConfig returns exactly the entries
whose key starts with the literal string `prefix + "."`, so that with
prefix "remote" neither "remoteextra.level" nor "xremote.level" is
captured.  The code instead matches the unanchored regex
`prefix + ".*"`: both keys ARE captured although neither starts with
"remote.", and "xremote.level" does not even start with "remote",
contradicting the function's own doc comment ("pairs that start with
string logDriver"). -/
theorem c1_getLogDriverConfig_captures_substring_keys :
    (getLogDriverConfig "remote"
        [("xremote.level", "debug"), ("remoteextra.level", "info"),
         ("other.key", "v")]).1 =
      GoResult.ret [("xremote.level", "debug"), ("remoteextra.level", "info")]
    ∧ List.isPrefixOf "remote.".toList "xremote.level".toList = false
    ∧ List.isPrefixOf "remote.".toList "remoteextra.level".toList = false
    ∧ List.isPrefixOf "remote".toList "xremote.level".toList = false := by
  decide

/-- C8: SetupLogging with an empty sink list and empty options, for any
tag, succeeds and leaves exactly one installed hook — the syslog one —
at the default level Info (priority LOG_INFO on the hook), with Info
also set as the emitter's global threshold and the default stderr
output silenced. -/
theorem c8_empty_setup_installs_only_syslog_at_info (tag env : String) :
    SetupLogging [] [] tag env initState =
      (Outcome.ok (syslogOnlyState env tag), []) := rfl

/-- C9: neither getLogDriverConfig nor SetupLogging ever mutates the
caller-supplied options map: the map as it stands when the call
returns (the second component of each embedded function, which threads
every operation performed on the caller's map) is the input map,
whatever the outcome. -/
theorem c9_logOpts_never_mutated :
    (∀ (d : String) (m : OptMap), (getLogDriverConfig d m).2 = m)
    ∧ ∀ (loggers : List String) (m : OptMap) (tag env : String)
        (st : LogrusState), (SetupLogging loggers m tag env st).2 = m := by
  constructor
  · intro d m
    rfl
  · intro loggers m tag env st
    cases hg : gatherConfig "syslog" m [] with
    | fatal msg => rw [setupLogging_gather_fatal loggers m tag env st msg hg]
    | ret vals =>
      rw [setupLogging_gather_ret loggers m tag env st vals hg]
      split
      · rfl
      · split
        · exact processLoggers_snd _ _ _
        · rfl
        · rfl

/-- C10: for each of the six defined severity levels, setFireLevels
returns a non-empty prefix of the full descending enumeration
[Panic, Fatal, Error, Warn, Info, Debug] (so the nil default branch is
unreachable for defined levels), and when L1 is at least as severe as
L2 (numerically L1 ≤ L2), setFireLevels L1 is a prefix of
setFireLevels L2. -/
theorem c10_setFireLevels_descending_chain :
    (∀ L : Level, L < 6 →
      setFireLevels L ≠ [] ∧
      ∃ t, setFireLevels L ++ t =
        [PanicLevel, FatalLevel, ErrorLevel, WarnLevel, InfoLevel, DebugLevel])
    ∧ ∀ L1 L2 : Level, L1 ≤ L2 → L2 < 6 →
        ∃ t, setFireLevels L2 = setFireLevels L1 ++ t := by
  constructor
  · intro L hL
    interval_cases L <;> exact ⟨by decide, ⟨_, rfl⟩⟩
  · intro L1 L2 h12 h2
    have h1 : L1 < 6 := lt_of_le_of_lt h12 h2
    interval_cases L2 <;> interval_cases L1 <;> exact ⟨_, rfl⟩

/-- C2 counterexample: the claim says a duplicated additional sink name
is short-circuited and installed once; running SetupLogging with
["fluentd", "fluentd"] installs TWO fluentd hooks. -/
theorem c2_duplicate_fluentd_installs_twice :
    ((SetupLogging ["fluentd", "fluentd"] [] "tag" ""
        initState).1.state).hooks.countP Hook.isFluentdHook = 2 := by
  decide

/-- C2 amended: only the always-on syslog name is short-circuited in
the loop; every occurrence of "fluentd" in the requested list installs
a separate fluentd hook, so a list over the known names yields one
fluentd hook per occurrence (after the single syslog hook). -/
theorem c2_each_fluentd_occurrence_installs (loggers : List String)
    (tag env : String) (h : ∀ l ∈ loggers, l = "syslog" ∨ l = "fluentd") :
    SetupLogging loggers [] tag env initState =
      (Outcome.ok { syslogOnlyState env tag with
        hooks := (syslogOnlyState env tag).hooks ++
          List.replicate (loggers.count "fluentd") defFluentdHook },
       []) := by
  have hstep : SetupLogging loggers [] tag env initState =
      processLoggers loggers [] (syslogOnlyState env tag) := rfl
  rw [hstep, processLoggers_known_empty loggers _ h]

/-- Witness for the amended C2 at the duplicated list
["fluentd", "fluentd"]. -/
theorem c2_each_fluentd_occurrence_installs_witness :
    (∀ l ∈ ["fluentd", "fluentd"], l = "syslog" ∨ l = "fluentd")
    ∧ SetupLogging ["fluentd", "fluentd"] [] "tag" "" initState =
        (Outcome.ok { syslogOnlyState "" "tag" with
          hooks := (syslogOnlyState "" "tag").hooks ++
            List.replicate ((["fluentd", "fluentd"]).count "fluentd")
              defFluentdHook },
         []) :=
  ⟨fun l hl => by simp at hl; exact Or.inr hl,
   c2_each_fluentd_occurrence_installs ["fluentd", "fluentd"] "tag" ""
     (fun l hl => by simp at hl; exact Or.inr hl)⟩

/-- C3 counterexample: the claim says every SetupLogging call installs
the always-on syslog sink exactly once; a call whose options carry an
unsupported syslog key returns the validation error with NO syslog
hook installed. -/
theorem c3_failed_syslog_validation_installs_nothing :
    (SetupLogging [] [("syslog.bogus", "x")] "tag" "" initState).1 =
      Outcome.err (LogError.unsupportedOption "syslog.bogus" "syslog")
        { output := OutputDest.stderr, formatter := some (setupFormatter ""),
          level := InfoLevel, hooks := [] }
    ∧ ((SetupLogging [] [("syslog.bogus", "x")] "tag" ""
        initState).1.state).hooks.countP Hook.isSyslogHook = 0 := by
  decide

/-- C3 amended: in every SetupLogging call whose syslog sub-map passes
validation and whose syslog level string parses, the syslog sink is
installed exactly once — it is the first hook, installed before the
loop, and no later step adds another syslog hook, whether or not (and
however often) "syslog" appears in the requested list. -/
theorem c3_syslog_installed_once_when_valid (loggers : List String)
    (m : OptMap) (tag env : String) (l : Level) (vals : OptMap)
    (hg : (getLogDriverConfig "syslog" m).1 = GoResult.ret vals)
    (hval : validateOpts "syslog" syslogOpts vals = none)
    (hlvl : parseLevel ((mapLookup vals "syslog.level").getD "info") =
      some l) :
    ∃ rest, ((SetupLogging loggers m tag env initState).1.state).hooks =
        Hook.syslog (syslogLevelMap l) tag :: rest
      ∧ rest.countP Hook.isSyslogHook = 0 := by
  have hg' : gatherConfig "syslog" m [] = GoResult.ret vals := hg
  have hsys : setupSyslog vals tag (silencedState env) =
      Outcome.ok (afterSyslogState env tag l) := by
    simp only [setupSyslog]
    rw [hlvl]
    rfl
  have hred : SetupLogging loggers m tag env initState =
      (match validateOpts "syslog" syslogOpts vals with
       | some e => (Outcome.err e (preState env), m)
       | none =>
         match setupSyslog vals tag (silencedState env) with
         | Outcome.ok st1 => processLoggers loggers m st1
         | Outcome.err e st1 => (Outcome.err e st1, m)
         | Outcome.fatal ms st1 => (Outcome.fatal ms st1, m)) := by
    simp only [SetupLogging, getLogDriverConfig, hg', preState,
      silencedState, initState]
  rw [hred]
  simp only [hval, hsys]
  obtain ⟨extra, hext, hall⟩ := processLoggers_hooks_extend loggers m
    (afterSyslogState env tag l)
  refine ⟨extra, ?_, ?_⟩
  · rw [hext]
    rfl
  · exact List.countP_eq_zero.mpr (fun hk hmem => by
      simp [hook_fluentd_not_syslog hk (hall hk hmem)])

/-- Witness for the amended C3: empty options and the list ["syslog"],
whose syslog occurrence is skipped. -/
theorem c3_syslog_installed_once_when_valid_witness :
    (getLogDriverConfig "syslog" []).1 = GoResult.ret []
    ∧ validateOpts "syslog" syslogOpts [] = none
    ∧ parseLevel ((mapLookup [] "syslog.level").getD "info") = some InfoLevel
    ∧ ∃ rest,
        ((SetupLogging ["syslog"] [] "t" "" initState).1.state).hooks =
          Hook.syslog (syslogLevelMap InfoLevel) "t" :: rest
        ∧ rest.countP Hook.isSyslogHook = 0 :=
  ⟨rfl, rfl, rfl,
   c3_syslog_installed_once_when_valid ["syslog"] [] "t" "" InfoLevel []
     rfl rfl rfl⟩

/-- C4: validateOpts succeeds exactly when every key of the sub-map is
in the allow-list; any returned error is the UnsupportedOption error
naming some offending key of the sub-map and the sink; and when a
kind's sub-map fails validation that kind's installer never runs — a
failing fluentd sub-map leaves no fluentd hook installed, and a
failing syslog sub-map makes the whole call return the error with
nothing at all installed. -/
theorem c4_validateOpts_allowlist_gate :
    (∀ (d : String) (sup : String → Bool) (m : OptMap),
      validateOpts d sup m = none ↔ ∀ kv ∈ m, sup kv.1 = true)
    ∧ (∀ (d : String) (sup : String → Bool) (m : OptMap) (e : LogError),
      validateOpts d sup m = some e →
        ∃ k v, (k, v) ∈ m ∧ sup k = false ∧
          e = LogError.unsupportedOption k d)
    ∧ (∀ (loggers : List String) (m : OptMap) (tag env : String)
        (vals : OptMap) (e : LogError),
      (getLogDriverConfig "syslog" m).1 = GoResult.ret vals →
      validateOpts "syslog" syslogOpts vals = some e →
        SetupLogging loggers m tag env initState =
          (Outcome.err e (preState env), m))
    ∧ ∀ (m : OptMap) (tag env : String) (vals : OptMap),
      (getLogDriverConfig "fluentd" m).1 = GoResult.ret vals →
      validateOpts "fluentd" fluentDOpts vals ≠ none →
        ((SetupLogging ["fluentd"] m tag env initState).1.state).hooks.countP
          Hook.isFluentdHook = 0 := by
  refine ⟨validateOpts_none_iff, validateOpts_some_shape, ?_, ?_⟩
  · intro loggers m tag env vals e hg he
    have hg' : gatherConfig "syslog" m [] = GoResult.ret vals := hg
    have hred : SetupLogging loggers m tag env initState =
        (match validateOpts "syslog" syslogOpts vals with
         | some e => (Outcome.err e (preState env), m)
         | none =>
           match setupSyslog vals tag (silencedState env) with
           | Outcome.ok st1 => processLoggers loggers m st1
           | Outcome.err e st1 => (Outcome.err e st1, m)
           | Outcome.fatal ms st1 => (Outcome.fatal ms st1, m)) := by
      simp only [SetupLogging, getLogDriverConfig, hg', preState,
        silencedState, initState]
    rw [hred]
    simp only [he]
  intro m tag env vals hg hval
  have hg' : gatherConfig "fluentd" m [] = GoResult.ret vals := hg
  cases hg0 : gatherConfig "syslog" m [] with
  | fatal msg =>
    have hred : SetupLogging ["fluentd"] m tag env initState =
        (Outcome.fatal msg (preState env), m) := by
      simp only [SetupLogging, getLogDriverConfig, hg0, preState, initState]
    rw [hred]
    simp [Outcome.state, preState]
  | ret vals0 =>
    have hred : SetupLogging ["fluentd"] m tag env initState =
        (match validateOpts "syslog" syslogOpts vals0 with
         | some e => (Outcome.err e (preState env), m)
         | none =>
           match setupSyslog vals0 tag (silencedState env) with
           | Outcome.ok st1 => processLoggers ["fluentd"] m st1
           | Outcome.err e st1 => (Outcome.err e st1, m)
           | Outcome.fatal ms st1 => (Outcome.fatal ms st1, m)) := by
      simp only [SetupLogging, getLogDriverConfig, hg0, preState,
        silencedState, initState]
    rw [hred]
    cases hv : validateOpts "syslog" syslogOpts vals0 with
    | some e => simp [Outcome.state, preState]
    | none =>
      cases hsys : setupSyslog vals0 tag (silencedState env) with
      | ok st1 =>
        obtain ⟨l, hst1⟩ := setupSyslog_ok_shape _ _ _ _ hsys
        show List.countP Hook.isFluentdHook
          (processLoggers ["fluentd"] m st1).1.state.hooks = 0
        rw [processLoggers_cons_ret "fluentd" [] m st1 vals hg']
        cases hv2 : validateOpts "fluentd" fluentDOpts vals with
        | none => exact absurd hv2 hval
        | some e2 =>
          subst hst1
          simp [Outcome.state, silencedState, Hook.isFluentdHook]
      | err e st1 =>
        simp only [setupSyslog] at hsys
        cases hpl : parseLevel ((mapLookup vals0
            "syslog.level").getD "info") with
        | none => rw [hpl] at hsys; exact absurd hsys (by simp)
        | some l2 => rw [hpl] at hsys; exact absurd hsys (by simp)
      | fatal ms st1 =>
        have hst1 := setupSyslog_fatal_state _ _ _ _ _ hsys
        subst hst1
        simp [Outcome.state, silencedState]

/-- Witness for C4 at the unsupported keys "fluentd.bogus" and
"syslog.bogus". -/
theorem c4_validateOpts_allowlist_gate_witness :
    ((getLogDriverConfig "fluentd" [("fluentd.bogus", "x")]).1 =
        GoResult.ret [("fluentd.bogus", "x")]
      ∧ validateOpts "fluentd" fluentDOpts [("fluentd.bogus", "x")] ≠ none
      ∧ ((SetupLogging ["fluentd"] [("fluentd.bogus", "x")] "t" ""
          initState).1.state).hooks.countP Hook.isFluentdHook = 0)
    ∧ ((getLogDriverConfig "syslog" [("syslog.bogus", "v")]).1 =
        GoResult.ret [("syslog.bogus", "v")]
      ∧ validateOpts "syslog" syslogOpts [("syslog.bogus", "v")] =
          some (LogError.unsupportedOption "syslog.bogus" "syslog")
      ∧ SetupLogging ["fluentd"] [("syslog.bogus", "v")] "t" "" initState =
          (Outcome.err
            (LogError.unsupportedOption "syslog.bogus" "syslog")
            (preState ""), [("syslog.bogus", "v")])) :=
  ⟨⟨by decide, by decide,
    c4_validateOpts_allowlist_gate.2.2.2 [("fluentd.bogus", "x")] "t" ""
      [("fluentd.bogus", "x")] (by decide) (by decide)⟩,
   ⟨by decide, by decide,
    c4_validateOpts_allowlist_gate.2.2.1 ["fluentd"] [("syslog.bogus", "v")]
      "t" "" [("syslog.bogus", "v")]
      (LogError.unsupportedOption "syslog.bogus" "syslog")
      (by decide) (by decide)⟩⟩

theorem gatherConfig_ret_of_compiles (d : String)
    (hd : patternCompiles d = true) (m : OptMap) :
    ∀ acc : OptMap, ∃ vals, gatherConfig d m acc = GoResult.ret vals := by
  obtain ⟨p, hp⟩ : ∃ p, compilePattern? (d ++ ".*").toList = some p := by
    rw [patternCompiles] at hd
    exact Option.isSome_iff_exists.mp hd
  induction m with
  | nil => exact fun acc => ⟨acc, rfl⟩
  | cons kv rest ih =>
    intro acc
    obtain ⟨k, v⟩ := kv
    have hm : goMatchString? (d ++ ".*") k =
        some (reMatchAnywhere p k.toList) := by
      simp only [goMatchString?]
      rw [hp]
      rfl
    simp only [gatherConfig, hm]
    split
    · exact ih _
    · exact ih _

/-- C5 counterexample: the claim asserts that every unknown requested
name yields the unknown-driver error, but an unknown name that is an
invalid regex, together with a non-empty options map, makes the call
abort fatally inside getLogDriverConfig (the regexp.MatchString error
branch) before the name-dispatch switch is reached: with the name "("
the partitioner's pattern "(.*" does not compile.  The second conjunct
records that no error outcome (of any content, at any state) is
returned there. -/
theorem c5_invalid_regex_unknown_name_fatal :
    SetupLogging ["("] [("k", "v")] "tag" "" initState =
      (Outcome.fatal (matchErrorMsg "k" "(") (syslogOnlyState "" "tag"),
       [("k", "v")])
    ∧ ∀ (e : LogError) (st : LogrusState),
        (SetupLogging ["("] [("k", "v")] "tag" "" initState).1 ≠
          Outcome.err e st := by
  refine ⟨by decide, ?_⟩
  intro e st h
  have h1 : (SetupLogging ["("] [("k", "v")] "tag" "" initState).1 =
      Outcome.fatal (matchErrorMsg "k" "(") (syslogOnlyState "" "tag") := by
    decide
  rw [h1] at h
  exact Outcome.noConfusion h

/-- C5 amended: when the first problematic name in the requested list
denotes no known sink kind AND its partitioner pattern compiles (as it
does for every metacharacter-free name, e.g. "unknown-sink"),
SetupLogging returns the unknown-driver error for that name at the
moment it is reached, leaving the state exactly as it stood (nothing
installed for the names after it); for an unknown name whose pattern
does not compile, with a non-empty options map, the call instead
aborts fatally in the partitioner.  Concretely, SetupLogging
["unknown-sink"] on empty options errors with unknownDriver
"unknown-sink" after installing only the always-on syslog sink. -/
theorem c5_unknown_sink_errors_when_reached (pre post : List String)
    (u : String) (m : OptMap) (st st1 : LogrusState) (tag env : String)
    (hu1 : u ≠ "syslog") (hu2 : u ≠ "fluentd")
    (hc : patternCompiles u = true)
    (hpre : processLoggers pre m st = (Outcome.ok st1, m)) :
    processLoggers (pre ++ u :: post) m st =
      (Outcome.err (LogError.unknownDriver u) st1, m)
    ∧ SetupLogging ["unknown-sink"] [] tag env initState =
        (Outcome.err (LogError.unknownDriver "unknown-sink")
          (syslogOnlyState env tag), []) := by
  constructor
  · rw [processLoggers_append pre (u :: post) m st st1 hpre]
    obtain ⟨vals, hv⟩ := gatherConfig_ret_of_compiles u hc m []
    rw [processLoggers_cons_ret u post m st1 vals hv]
    simp [hu1, hu2]
  · rfl

/-- Witness for the amended C5: the metacharacter-free unknown name
"unknown-sink" reached first, over a non-empty options map. -/
theorem c5_unknown_sink_errors_when_reached_witness :
    ("unknown-sink" ≠ "syslog") ∧ ("unknown-sink" ≠ "fluentd")
    ∧ patternCompiles "unknown-sink" = true
    ∧ processLoggers [] [("a", "b")] initState =
        (Outcome.ok initState, [("a", "b")])
    ∧ processLoggers ([] ++ "unknown-sink" :: []) [("a", "b")] initState =
        (Outcome.err (LogError.unknownDriver "unknown-sink") initState,
         [("a", "b")]) :=
  ⟨by decide, by decide, by decide, rfl,
   (c5_unknown_sink_errors_when_reached [] [] "unknown-sink" [("a", "b")]
     initState initState "tag" "" (by decide) (by decide) (by decide)
     rfl).1⟩

/-- C6: in both installers an unparseable severity-level option string
is a logrus.Fatal process abort, not a returned error; and
SetupLogging ["fluentd"] with option "fluentd.level" = "bogus" (the
spec's remote sink) passes validation and then hits exactly this fatal
level-parse path. -/
theorem c6_invalid_level_is_fatal :
    (∀ (m : OptMap) (tag : String) (st : LogrusState),
      parseLevel ((mapLookup m "syslog.level").getD "info") = none →
        setupSyslog m tag st = Outcome.fatal
          (levelParseErrorMsg ((mapLookup m "syslog.level").getD "info")) st)
    ∧ (∀ (m : OptMap) (st : LogrusState),
      parseLevel ((mapLookup m "fluentd.level").getD "info") = none →
        setupFluentD m st = Outcome.fatal
          (levelParseErrorMsg ((mapLookup m "fluentd.level").getD "info")) st)
    ∧ ∀ tag env : String,
      SetupLogging ["fluentd"] [("fluentd.level", "bogus")] tag env
          initState =
        (Outcome.fatal (levelParseErrorMsg "bogus")
          (syslogOnlyState env tag), [("fluentd.level", "bogus")]) := by
  refine ⟨?_, ?_, ?_⟩
  · intro m tag st h
    simp only [setupSyslog]
    rw [h]
  · intro m st h
    simp only [setupFluentD]
    rw [h]
  · intro tag env
    rfl

/-- Witness for C6 at the concrete unparseable level string "bogus" in
both installers. -/
theorem c6_invalid_level_is_fatal_witness :
    (parseLevel ((mapLookup [("syslog.level", "bogus")]
        "syslog.level").getD "info") = none
      ∧ setupSyslog [("syslog.level", "bogus")] "t" initState =
          Outcome.fatal (levelParseErrorMsg "bogus") initState)
    ∧ (parseLevel ((mapLookup [("fluentd.level", "bogus")]
        "fluentd.level").getD "info") = none
      ∧ setupFluentD [("fluentd.level", "bogus")] initState =
          Outcome.fatal (levelParseErrorMsg "bogus") initState) :=
  ⟨⟨by decide,
    c6_invalid_level_is_fatal.1 [("syslog.level", "bogus")] "t" initState
      (by decide)⟩,
   ⟨by decide,
    c6_invalid_level_is_fatal.2.1 [("fluentd.level", "bogus")] initState
      (by decide)⟩⟩

/-- The fluentd installer on the sub-map holding exactly a parseable
level option: all other settings default and the hook carries the
enumerated fire-level set of the parsed level. -/
theorem setupFluentD_single_level (lvlStr : String) (level : Level)
    (st : LogrusState) (h : parseLevel lvlStr = some level) :
    setupFluentD [("fluentd.level", lvlStr)] st =
      Outcome.ok { st with hooks := st.hooks ++
        [Hook.fluentd "localhost" 24224 none (setFireLevels level)] } := by
  simp only [setupFluentD]
  have hlook : (mapLookup [("fluentd.level", lvlStr)]
      "fluentd.level").getD "info" = lvlStr := rfl
  rw [hlook, h]
  rfl

/-- The at-or-above enumeration in the spec's words: the ordered
sequence of all severities at-or-above the given level, highest
severity first — the full descending enumeration filtered to the
levels at least as severe (numerically at most the given level).  This
is the spec-side comparator for C7, not a transcription of the code. -/
def atOrAboveEnumeration (L : Level) : List Level :=
  ([PanicLevel, FatalLevel, ErrorLevel, WarnLevel, InfoLevel,
    DebugLevel]).filter (fun x => decide (x ≤ L))

theorem parseLevel_defined (s : String) (l : Level)
    (h : parseLevel s = some l) : l < 6 := by
  simp only [parseLevel] at h
  repeat' split at h
  all_goals cases h
  all_goals decide

/-- C7: for every defined severity level, setFireLevels returns exactly
the ordered at-or-above enumeration (highest severity first) — for
Warn exactly [Panic, Fatal, Error, Warn] — and the fluentd hook (the
sink needing exact severity-set enumeration) is installed with exactly
that enumerated set for its configured level, not a single threshold. -/
theorem c7_fluentd_receives_fire_level_enumeration :
    (∀ L : Level, L < 6 → setFireLevels L = atOrAboveEnumeration L)
    ∧ setFireLevels WarnLevel = [PanicLevel, FatalLevel, ErrorLevel,
        WarnLevel]
    ∧ ∀ (lvlStr : String) (level : Level) (tag env : String),
      parseLevel lvlStr = some level →
        SetupLogging ["fluentd"] [("fluentd.level", lvlStr)] tag env
            initState =
          (Outcome.ok { syslogOnlyState env tag with
            hooks := (syslogOnlyState env tag).hooks ++
              [Hook.fluentd "localhost" 24224 none
                (atOrAboveEnumeration level)] },
           [("fluentd.level", lvlStr)]) := by
  have henum : ∀ L : Level, L < 6 →
      setFireLevels L = atOrAboveEnumeration L := by
    intro L hL
    interval_cases L <;> decide
  refine ⟨henum, by decide, ?_⟩
  intro lvlStr level tag env h
  rw [← henum level (parseLevel_defined lvlStr level h)]
  have hred : SetupLogging ["fluentd"] [("fluentd.level", lvlStr)] tag env
      initState =
      (match setupFluentD [("fluentd.level", lvlStr)]
          (syslogOnlyState env tag) with
       | Outcome.ok st1 => (Outcome.ok st1, [("fluentd.level", lvlStr)])
       | Outcome.err e st1 =>
           (Outcome.err e st1, [("fluentd.level", lvlStr)])
       | Outcome.fatal ms st1 =>
           (Outcome.fatal ms st1, [("fluentd.level", lvlStr)])) := rfl
  rw [hred, setupFluentD_single_level lvlStr level _ h]

/-- Witness for C7 at the concrete level Error (2) for the enumeration
and the concrete level string "warn" for the installed hook. -/
theorem c7_fluentd_receives_fire_level_enumeration_witness :
    ((2 : Level) < 6 ∧ setFireLevels 2 = atOrAboveEnumeration 2)
    ∧ parseLevel "warn" = some WarnLevel
    ∧ SetupLogging ["fluentd"] [("fluentd.level", "warn")] "t" ""
        initState =
      (Outcome.ok { syslogOnlyState "" "t" with
        hooks := (syslogOnlyState "" "t").hooks ++
          [Hook.fluentd "localhost" 24224 none
            (atOrAboveEnumeration WarnLevel)] },
       [("fluentd.level", "warn")]) :=
  ⟨⟨by decide, c7_fluentd_receives_fire_level_enumeration.1 2 (by decide)⟩,
   by decide,
   c7_fluentd_receives_fire_level_enumeration.2.2 "warn" WarnLevel "t" ""
     (by decide)⟩

/-- Witness for C10 at the concrete levels Warn (3) and Fatal (1). -/
theorem c10_setFireLevels_descending_chain_witness :
    ((3 : Level) < 6 ∧ (setFireLevels 3 ≠ [] ∧
      ∃ t, setFireLevels 3 ++ t =
        [PanicLevel, FatalLevel, ErrorLevel, WarnLevel, InfoLevel, DebugLevel]))
    ∧ ((1 : Level) ≤ 3 ∧ ∃ t, setFireLevels 3 = setFireLevels 1 ++ t) :=
  ⟨⟨by decide, c10_setFireLevels_descending_chain.1 3 (by decide)⟩,
   ⟨by decide, c10_setFireLevels_descending_chain.2 1 3 (by decide) (by decide)⟩⟩

end Common
